import Mathlib

/-!
# Verification of the dependency-graph core of the todo application

This development is a shallow embedding of the dependency-route handlers in
`src/app/api/todos/[id]/dependencies/route.ts`:

* `hasCircularDependencies` — the DFS cycle check run before an edge is added;
* `calculateEarliestStart` — the recursive earliest-start computation;
* `updateCriticalPathStatus` / `markCriticalPath` — the global critical-path
  recompute;
* `POST` / `DELETE` — the add-dependencies and remove-dependencies handlers.

The Prisma store is modelled as an association list from task id to a record
holding the fields the core reads and writes (`dueDate`, `createdAt`,
`earliestStart`, `isCritical`) together with the outgoing dependency edges.
Dates are modelled as natural numbers (milliseconds since the epoch); a JS
`Date` object is always truthy, so `x || y` on dates is `Option.getD`.
The source's unbounded recursion is modelled with an explicit fuel parameter:
a result of `none` at every fuel bound corresponds to non-termination of the
JavaScript recursion.
-/

/-- The fields of a `Todo` row that the dependency core reads or writes,
together with the ids of the tasks it depends on (the `dependencies`
relation).  `dueDate` is nullable in the schema; `createdAt` is not. -/
structure Todo where
  dueDate : Option Nat
  createdAt : Nat
  earliestStart : Option Nat
  isCritical : Bool
  deps : List Nat
  deriving Repr, DecidableEq

/-- The graph store: an association list from task id to row, in the
enumeration order that `findMany` returns. -/
def Store := List (Nat × Todo)

instance : DecidableEq Store := by
  unfold Store
  infer_instance

/-- `prisma.todo.findUnique({ where: { id } })`. -/
def find (s : Store) (i : Nat) : Option Todo :=
  (s.find? (fun p => p.1 = i)).map (fun p => p.2)

/-- `prisma.todo.update({ where: { id }, data })`: rewrite the row with the
given id, leave every other row unchanged. -/
def updateTodo (s : Store) (i : Nat) (f : Todo → Todo) : Store :=
  s.map (fun p => if p.1 = i then (p.1, f p.2) else p)

/-- `data: { isCritical: true }` on one row. -/
def setCritical (s : Store) (i : Nat) : Store :=
  updateTodo s i (fun t => { t with isCritical := true })

/-- `data: { earliestStart: v }` on one row. -/
def setES (s : Store) (i : Nat) (v : Option Nat) : Store :=
  updateTodo s i (fun t => { t with earliestStart := v })

/-- `prisma.todo.updateMany({ data: { isCritical: false } })`. -/
def clearFlags (s : Store) : Store :=
  s.map (fun p => (p.1, { p.2 with isCritical := false }))

/-- The `include: { dependencies: true }` join: the dependency rows of a task,
paired with their ids.  The relational join only returns rows that exist. -/
def joinDeps (s : Store) (t : Todo) : List (Nat × Todo) :=
  t.deps.filterMap (fun i => (find s i).map (fun td => (i, td)))

/-- The `include: { dependents: true }` join: ids of the tasks that list `i`
among their dependencies. -/
def dependentsOf (s : Store) (i : Nat) : List Nat :=
  (s.filter (fun p => i ∈ p.2.deps)).map (fun p => p.1)

/-- Projection used in frame statements: the persisted `earliestStart` field
of task `u` (as stored, not recomputed). -/
def esOf (s : Store) (u : Nat) : Option (Option Nat) :=
  (find s u).map (fun t => t.earliestStart)

/-- Projection: the stored dependency ids of task `u` (empty if absent). -/
def depsOf (s : Store) (u : Nat) : List Nat :=
  ((find s u).map (fun t => t.deps)).getD []

/-- Projection: the stored `isCritical` flag of task `u`. -/
def flagOf (s : Store) (u : Nat) : Option Bool :=
  (find s u).map (fun t => t.isCritical)

/-- `Promise.all` over a list of fallible computations: all succeed or the
whole computation fails. -/
def mapOpt (f : α → Option β) : List α → Option (List β)
  | [] => some []
  | a :: l =>
    match f a, mapOpt f l with
    | some b, some bs => some (b :: bs)
    | _, _ => none

/-- The `for (const dependency of todo.dependencies)` loop of the source's
`dfs`: test each dependency id against `tgt` and otherwise hand it to the
recursive search `rec`, threading the visited set through the iterations and
returning early on a hit.  The recursion stack is shared unchanged across the
iterations (each recursive call restores it on a false return). -/
def dfsFor (tgt : Nat)
    (rec : Nat → List Nat → List Nat → Option (Bool × List Nat)) :
    List Nat → List Nat → List Nat → Option (Bool × List Nat)
  | [], visited, _ => some (false, visited)
  | d :: rest, visited, stack =>
    if d = tgt then some (true, visited)
    else
      match rec d visited stack with
      | none => none
      | some (true, v) => some (true, v)
      | some (false, v) => dfsFor tgt rec rest v stack

/-- The inner `dfs` of `hasCircularDependencies`.  `tgt` is
`newDependencyId`; `visited` and `stack` are the two sets the source
maintains.  Returns the boolean result together with the visited set as it
stands on return (the recursion stack is restored on a false return, so it is
passed down but not returned).  `none` means the fuel bound was hit. -/
def dfs (s : Store) (tgt : Nat) :
    Nat → Nat → List Nat → List Nat → Option (Bool × List Nat)
  | 0, _, _, _ => none
  | fuel + 1, currentId, visited, stack =>
    if currentId ∈ stack then some (true, visited)
    else if currentId ∈ visited then some (false, visited)
    else
      let visited' := currentId :: visited
      match find s currentId with
      | none => some (false, visited')
      | some todo =>
        dfsFor tgt (fun d v st => dfs s tgt fuel d v st)
          ((joinDeps s todo).map (fun p => p.1))
          visited' (currentId :: stack)

/-- `hasCircularDependencies(todoId, newDependencyId)`: run the DFS starting
from `newDependencyId` with empty visited and stack sets.  The `todoId`
parameter is unused by the source's `dfs`, and is kept here to mirror the
source signature. -/
def hasCircularDependencies (s : Store) (todoId newDependencyId fuel : Nat) :
    Option Bool :=
  (dfs s newDependencyId fuel newDependencyId [] []).map (fun p => p.1)

/-- The fallback chain `depEarliestStart || dep.dueDate || dep.createdAt`
applied to one joined dependency row, where `es` is the recursively computed
earliest start of that dependency. -/
def depContribution (p : Nat × Todo) (es : Option Nat) : Nat :=
  es.getD (p.2.dueDate.getD p.2.createdAt)

/-- `calculateEarliestStart(todoId)`.  Outer `none` is fuel exhaustion
(the source recursion not returning); `some none` is the JavaScript `null`. -/
def calculateEarliestStart (s : Store) : Nat → Nat → Option (Option Nat)
  | 0, _ => none
  | fuel + 1, todoId =>
    match find s todoId with
    | none => some none
    | some todo =>
      match joinDeps s todo with
      | [] => some (some todo.createdAt)
      | d :: ds =>
        match mapOpt
            (fun p => (calculateEarliestStart s fuel p.1).map
              (fun es => depContribution p es)) (d :: ds) with
        | none => none
        | some dates => some (some (dates.foldl Nat.max 0))

/-- The contribution of one joined dependency row, including the recursive
call (the body of the `map` passed to `Promise.all`). -/
def contribution (s : Store) (fuel : Nat) (p : Nat × Todo) : Option Nat :=
  (calculateEarliestStart s fuel p.1).map (fun es => depContribution p es)

/-- `dep.dueDate || dep.createdAt`: the effective completion date used by the
critical-path backward walk. -/
def effDate (t : Todo) : Nat :=
  t.dueDate.getD t.createdAt

/-- The `for (const dep of todo.dependencies)` loop of `markCriticalPath`:
starting from `dependencies[0]`, keep the dependency with the strictly
latest effective date. -/
def pickLatest (first : Nat × Todo) (l : List (Nat × Todo)) : Nat :=
  (l.foldl (fun acc p => if effDate p.2 > effDate acc.2 then p else acc)
    first).1

/-- `markCriticalPath(todoId)`: set the flag, then walk into the bottleneck
dependency.  `none` is fuel exhaustion, or the `prisma.todo.update` throw on
a missing id (which cannot occur from `updateCriticalPathStatus`). -/
def markCriticalPath (s : Store) : Nat → Nat → Option Store
  | 0, _ => none
  | fuel + 1, todoId =>
    match find s todoId with
    | none => none
    | some _ =>
      let s1 := setCritical s todoId
      match find s1 todoId with
      | none => none
      | some todo =>
        match joinDeps s1 todo with
        | [] => some s1
        | d :: ds => markCriticalPath s1 fuel (pickLatest d (d :: ds))

/-- The `for (const endNode of endNodes)` loop of
`updateCriticalPathStatus`: run the backward walks sequentially. -/
def markAll (fuel : Nat) : Store → List Nat → Option Store
  | s, [] => some s
  | s, e :: rest =>
    match markCriticalPath s fuel e with
    | none => none
    | some s' => markAll fuel s' rest

/-- End nodes: tasks whose `dependents` join is empty, read from the store
before the flags are cleared. -/
def endNodes (s : Store) : List Nat :=
  (s.filter (fun p => dependentsOf s p.1 = [])).map (fun p => p.1)

/-- `updateCriticalPathStatus()`: read all todos, reset every flag, then walk
backward from each end node. -/
def updateCriticalPathStatus (s : Store) (fuel : Nat) : Option Store :=
  markAll fuel (clearFlags s) (endNodes s)

/-- The distinct responses the `POST` handler can produce, by their error
payloads: `circular` carries the dependency id interpolated into
`"Adding dependency ${depId} would create a circular dependency"`;
`selfDependency` is the constant string `"Cannot add self as dependency"`;
`internalError` is the catch-all 500. -/
inductive PostResult where
  | ok
  | todoNotFound
  | selfDependency
  | circular (depId : Nat)
  | internalError
  deriving Repr, DecidableEq

/-- The dependency id contained in the response payload, if any: only the
circular-dependency message interpolates an id. -/
def reportedDependencyId : PostResult → Option Nat
  | .circular d => some d
  | _ => none

/-- The validation loop of `POST`: for each candidate, the self check, then
the cycle check.  `some none` means every candidate passed; `some (some e)`
is an early rejection; `none` means a cycle check hit the fuel bound. -/
def checkDeps (s : Store) (id : Nat) : List Nat → Nat → Option (Option PostResult)
  | [], _ => some none
  | depId :: rest, fuel =>
    if depId = id then some (some .selfDependency)
    else
      match hasCircularDependencies s id depId fuel with
      | none => none
      | some true => some (some (.circular depId))
      | some false => checkDeps s id rest fuel

/-- The nested-write `connect`: Prisma adds each listed edge (idempotently at
the edge-set level) inside one atomic update, and throws — changing nothing —
if any listed dependency row does not exist. -/
def connectEdges (s : Store) (id : Nat) (dependencyIds : List Nat) :
    Option Store :=
  if dependencyIds.all (fun i => (find s i).isSome) then
    some (updateTodo s id (fun t =>
      { t with deps := (dependencyIds.foldl
          (fun d i => if i ∈ d then d else d ++ [i]) t.deps) }))
  else none

/-- The `POST` handler on a parsed request: existence check on the task,
validation loop, edge connect, earliest-start recompute and store, global
critical-path recompute.  The returned store is the persisted state even when
the request never produces a response (`none`): the edge mutation is a
separate query from the recomputes and is not rolled back. -/
def POST (fuel : Nat) (s : Store) (id : Nat) (dependencyIds : List Nat) :
    Option PostResult × Store :=
  match find s id with
  | none => (some .todoNotFound, s)
  | some _ =>
    match checkDeps s id dependencyIds fuel with
    | none => (none, s)
    | some (some e) => (some e, s)
    | some none =>
      match connectEdges s id dependencyIds with
      | none => (some .internalError, s)
      | some s1 =>
        match calculateEarliestStart s1 fuel id with
        | none => (none, s1)
        | some es =>
          let s2 := setES s1 id es
          match updateCriticalPathStatus s2 fuel with
          | none => (none, s2)
          | some s3 => (some .ok, s3)

/-- The `DELETE` handler: no existence or cycle checks; `disconnect` removes
the listed edges (a no-op for edges not present), then the same
recompute-and-persist sequence as `POST`.  A missing task id makes the update
throw, caught as the generic 500. -/
def DELETE (fuel : Nat) (s : Store) (id : Nat) (dependencyIds : List Nat) :
    Option PostResult × Store :=
  match find s id with
  | none => (some .internalError, s)
  | some _ =>
    let s1 := updateTodo s id (fun t =>
      { t with deps := t.deps.filter (fun i => ¬ i ∈ dependencyIds) })
    match calculateEarliestStart s1 fuel id with
    | none => (none, s1)
    | some es =>
      let s2 := setES s1 id es
      match updateCriticalPathStatus s2 fuel with
      | none => (none, s2)
      | some s3 => (some .ok, s3)

/-- One dependency edge of the store, as a relation on ids. -/
def edgeRel (s : Store) (a b : Nat) : Prop :=
  ∃ t, find s a = some t ∧ b ∈ t.deps

instance (s : Store) (a b : Nat) : Decidable (edgeRel s a b) := by
  unfold edgeRel
  exact match h : find s a with
  | none => .isFalse (by simp [h])
  | some t => decidable_of_iff (b ∈ t.deps) (by simp [h])

/-- The central invariant of the spec: the edge set has no directed cycle. -/
def Acyclic (s : Store) : Prop :=
  ∀ a, ¬ Relation.TransGen (edgeRel s) a a

/-! ## Concrete stores used as test inputs and counterexample inputs -/

/-- A row with no derived attributes yet, as task creation leaves it. -/
def mkTodo (due : Option Nat) (created : Nat) (deps : List Nat) : Todo :=
  { dueDate := due, createdAt := created, earliestStart := none,
    isCritical := false, deps := deps }

/-- Task 1 depends on task 2; both created on day 1.  The acyclic store in
which the spec demands that adding the back edge 2 → 1 be rejected. -/
def c1store : Store := [(1, mkTodo none 1 [2]), (2, mkTodo none 1 [])]

/-- `c1store` after the back edge 2 → 1 has been committed: a 2-cycle. -/
def c1after : Store := [(1, mkTodo none 1 [2]), (2, mkTodo none 1 [1])]

/-- The §8 scenario before any edges: task 1 (A) created day 1 with no due
date, task 2 (B) due day 5, task 3 (C); all rows created day 1. -/
def c2s0 : Store :=
  [(1, mkTodo none 1 []), (2, mkTodo (some 5) 1 []), (3, mkTodo none 1 [])]

/-- The store after `addDependencies(3, [2])` (C depends on B). -/
def c2s1 : Store := (POST 10 c2s0 3 [2]).2

/-- The store after the further `addDependencies(2, [1])` (B depends on A). -/
def c2s2 : Store := (POST 10 c2s1 2 [1]).2

/-- A store whose single task depends on itself: the smallest cyclic input. -/
def c3store : Store := [(1, mkTodo none 1 [1])]

/-- A store holding only task 1, so that dependency id 99 does not exist. -/
def c6store : Store := [(1, mkTodo none 1 [])]

/-- A corrupted store: tasks 1 and 2 depend on each other, task 3 is free. -/
def c7store : Store :=
  [(1, mkTodo none 1 [2]), (2, mkTodo none 1 [1]), (3, mkTodo none 1 [])]

/-! ## Helper lemmas about the concrete stores -/

/-- On the committed 2-cycle, the earliest-start recursion returns no result
at any recursion budget: the source recursion never terminates. -/
theorem c1after_calcES_diverges : ∀ fuel,
    calculateEarliestStart c1after fuel 1 = none ∧
    calculateEarliestStart c1after fuel 2 = none := by
  intro fuel
  induction fuel with
  | zero => exact ⟨rfl, rfl⟩
  | succ n ih =>
    simp only [c1after, mkTodo] at ih
    refine ⟨?_, ?_⟩ <;>
      simp [calculateEarliestStart, c1after, find, joinDeps, mkTodo, mapOpt,
        ih.1, ih.2]

/-! ## C1 -/

/-- C1: the claim that `addDependencies(B, [A])` is rejected with
`CycleDetected` whenever A transitively depends on B fails on the code.  The
DFS of `hasCircularDependencies` tests each reachable dependency against
`newDependencyId` instead of `todoId` (the `todoId` parameter is unused), so
on the acyclic store where task 1 depends on task 2 it reports no cycle for
the back edge 2 → 1; `POST` then commits the edge, producing a 2-cycle, and
the subsequent earliest-start recompute diverges, so the request never
answers.  The edge set does not remain acyclic. -/
theorem addDependencies_commits_back_edge_cycle :
    hasCircularDependencies c1store 2 1 10 = some false ∧
    POST 10 c1store 2 [1] = (none, c1after) ∧
    1 ∈ depsOf c1after 2 ∧ 2 ∈ depsOf c1after 1 ∧
    (∀ fuel, calculateEarliestStart c1after fuel 2 = none) :=
  ⟨rfl, rfl, by decide, by decide, fun fuel => (c1after_calcES_diverges fuel).2⟩

/-! ## C2 -/

/-- C2 counterexample: in the §8 scenario, after the adds C → B and B → A
both succeed, the stored earliest start of task C (id 3) is day 1, not day 5
as the claim states: C's single dependency B contributes its recursively
computed earliest start (day 1, from A's creation date), which is non-null,
so B's due date is never consulted. -/
theorem scenario_earliestStart_of_C_is_not_day5 :
    (POST 10 c2s0 3 [2]).1 = some .ok ∧
    (POST 10 c2s1 2 [1]).1 = some .ok ∧
    esOf c2s2 3 = some (some 1) ∧ esOf c2s2 3 ≠ some (some 5) := by
  refine ⟨rfl, rfl, rfl, by decide⟩

/-- C2 amended: after the adds C → B and B → A, the computed earliest start
of B is day 1 and the computed earliest start of C is also day 1 (B's
computed earliest start, which being non-null takes precedence over B's due
date), and the critical-path recompute marks exactly C, B and A critical. -/
theorem scenario_earliestStart_and_critical_path :
    (POST 10 c2s0 3 [2]).1 = some .ok ∧
    (POST 10 c2s1 2 [1]).1 = some .ok ∧
    esOf c2s2 2 = some (some 1) ∧
    esOf c2s2 3 = some (some 1) ∧
    flagOf c2s2 1 = some true ∧
    flagOf c2s2 2 = some true ∧
    flagOf c2s2 3 = some true :=
  ⟨rfl, rfl, rfl, rfl, rfl, rfl, rfl⟩

/-! ## C3 -/

/-- C3: the claim that the earliest-start computation is guarded against
cycles and fails loudly with `CycleInvariantViolated` fails on the code.
`calculateEarliestStart` has no visited set and no cycle error; on the store
whose task 1 depends on itself, the recursion returns no result at any
recursion budget — the source recursion runs forever instead of failing
loudly.  (No `CycleInvariantViolated` error exists anywhere in the code.) -/
theorem calculateEarliestStart_diverges_on_cycle :
    ∀ fuel, calculateEarliestStart c3store fuel 1 = none := by
  intro fuel
  induction fuel with
  | zero => rfl
  | succ n ih =>
    simp only [c3store, mkTodo] at ih
    simp [calculateEarliestStart, c3store, find, joinDeps, mkTodo, mapOpt, ih]

/-! ## C6 -/

/-- C6: the claim that a call listing a nonexistent dependency id fails with
a not-found error identifying that id fails on the code.  `POST` validates
only the edited task's existence; a nonexistent dependency id passes the self
and cycle checks (the DFS treats a missing row as contributing no cycle) and
the Prisma `connect` then throws, which the handler maps to the generic 500
`'Error adding dependencies'` — an unrelated error that names no id. -/
theorem missing_dependency_yields_generic_error :
    POST 5 c6store 1 [99] = (some .internalError, c6store) ∧
    reportedDependencyId .internalError = none ∧
    PostResult.internalError ≠ PostResult.todoNotFound :=
  ⟨rfl, rfl, by decide⟩

/-! ## List helpers for the earliest-start bound -/

/-- If the whole `Promise.all` succeeded, the result of each member
computation is in the collected list. -/
theorem mapOpt_mem {f : α → Option β} {l : List α} {bs : List β}
    (h : mapOpt f l = some bs) {a : α} (ha : a ∈ l) {b : β}
    (hb : f a = some b) : b ∈ bs := by
  induction l generalizing bs with
  | nil => cases ha
  | cons x xs ih =>
    simp only [mapOpt] at h
    cases hfx : f x with
    | none => rw [hfx] at h; cases h
    | some bx =>
      cases hrest : mapOpt f xs with
      | none => rw [hfx, hrest] at h; cases h
      | some brest =>
        rw [hfx, hrest] at h
        cases h
        rcases List.mem_cons.mp ha with rfl | hmem
        · rw [hfx] at hb
          cases hb
          exact List.mem_cons_self _ _
        · exact List.mem_cons_of_mem _ (ih hrest hmem)

/-- The seed of a left fold by `Nat.max` is a lower bound of the result. -/
theorem init_le_foldl_max (l : List Nat) (init : Nat) :
    init ≤ l.foldl Nat.max init := by
  induction l generalizing init with
  | nil => exact Nat.le_refl _
  | cons x xs ih => exact Nat.le_trans (Nat.le_max_left init x) (ih _)

/-- Every member of a list is bounded by its left fold by `Nat.max`. -/
theorem mem_le_foldl_max {l : List Nat} {b : Nat} (hb : b ∈ l) (init : Nat) :
    b ≤ l.foldl Nat.max init := by
  induction l generalizing init with
  | nil => cases hb
  | cons x xs ih =>
    rcases List.mem_cons.mp hb with rfl | hmem
    · exact Nat.le_trans (Nat.le_max_right init b) (init_le_foldl_max xs _)
    · exact ih hmem _

/-! ## C8 -/

/-- C8: for every existing task with no dependencies, the computed earliest
start is its own creation date (never null): the handler returns
`todo.createdAt` when the joined dependency list is empty, and a `Date` is
always truthy, so the `|| null` fallback is never taken. -/
theorem calculateEarliestStart_no_deps (s : Store) (t fuel : Nat)
    (todo : Todo) (hf : find s t = some todo) (hnd : todo.deps = []) :
    calculateEarliestStart s (fuel + 1) t = some (some todo.createdAt) := by
  simp [calculateEarliestStart, hf, joinDeps, hnd]

/-- Witness for C8: in the scenario store, task 1 has no dependencies and
was created on day 1, and its computed earliest start is day 1. -/
theorem calculateEarliestStart_no_deps_witness :
    calculateEarliestStart c2s0 5 1 = some (some 1) :=
  calculateEarliestStart_no_deps c2s0 1 4 (mkTodo none 1 []) rfl rfl

/-! ## C4 -/

/-- A task with at least one dependency whose earliest start the handler
computed successfully. -/
def c4store : Store :=
  [(10, mkTodo none 1 [11, 12]), (11, mkTodo none 7 []),
   (12, mkTodo none 3 [])]

/-- C4: whenever the earliest-start computation returns a date `m` for a task
with at least one dependency, `m` bounds from above the contribution of every
dependency, where a contribution is the dependency's recursively computed
earliest start, or if that is unset its due date, or if that is unset its
creation date.  Hence the computed earliest start is never less than the
maximum of the dependency contributions. -/
theorem calculateEarliestStart_ge_contributions (s : Store) (fuel t : Nat)
    (todo : Todo) (p : Nat × Todo) (c m : Nat)
    (hf : find s t = some todo) (hne : joinDeps s todo ≠ [])
    (hc : calculateEarliestStart s (fuel + 1) t = some (some m))
    (hp : p ∈ joinDeps s todo) (hcon : contribution s fuel p = some c) :
    c ≤ m := by
  obtain ⟨d, ds, hds⟩ := List.exists_cons_of_ne_nil hne
  have hfn : (fun q => (calculateEarliestStart s fuel q.1).map
      (fun es => depContribution q es)) = contribution s fuel := rfl
  rw [calculateEarliestStart, hf] at hc
  simp only [hds, hfn] at hc
  cases hm : mapOpt (contribution s fuel) (d :: ds) with
  | none => rw [hm] at hc; cases hc
  | some dates =>
    rw [hm] at hc
    have hmm : m = dates.foldl Nat.max 0 := by
      have := Option.some.inj (Option.some.inj hc)
      omega
    rw [hds] at hp
    exact hmm ▸ mem_le_foldl_max (mapOpt_mem hm hp hcon) 0

/-- Witness for C4: in `c4store`, task 10 depends on tasks 11 and 12; the
computed earliest start of task 10 is 7 and task 12 contributes 3 ≤ 7. -/
theorem calculateEarliestStart_ge_contributions_witness : (3 : Nat) ≤ 7 :=
  calculateEarliestStart_ge_contributions c4store 4 10 (mkTodo none 1 [11, 12])
    (12, mkTodo none 3 []) 3 7 rfl (by decide) rfl (by decide) rfl

/-! ## C5 -/

/-- An early rejection of the validation loop is a self-dependency on the
edited task itself or a circular report naming a listed candidate. -/
theorem checkDeps_reject_cases {s : Store} {id : Nat} {ids : List Nat}
    {fuel : Nat} {e : PostResult}
    (h : checkDeps s id ids fuel = some (some e)) :
    (e = .selfDependency ∧ id ∈ ids) ∨ ∃ d, e = .circular d ∧ d ∈ ids := by
  induction ids with
  | nil => simp [checkDeps] at h
  | cons d rest ih =>
    rw [checkDeps] at h
    by_cases hd : d = id
    · rw [if_pos hd] at h
      have he := Option.some.inj (Option.some.inj h)
      exact Or.inl ⟨he.symm, hd ▸ List.mem_cons_self _ _⟩
    · rw [if_neg hd] at h
      cases hcirc : hasCircularDependencies s id d fuel with
      | none => rw [hcirc] at h; cases h
      | some b =>
        rw [hcirc] at h
        cases b with
        | true =>
          have he := Option.some.inj (Option.some.inj h)
          exact Or.inr ⟨d, he.symm, List.mem_cons_self _ _⟩
        | false =>
          rcases ih h with ⟨he, hmem⟩ | ⟨d', he, hmem⟩
          · exact Or.inl ⟨he, List.mem_cons_of_mem _ hmem⟩
          · exact Or.inr ⟨d', he, List.mem_cons_of_mem _ hmem⟩

/-- C5 counterexample: on the call `addDependencies(1, [2, 1])` the rejection
is caused by candidate 1 (a self-reference), but the response —
`'Cannot add self as dependency'` — interpolates no candidate id, so the
claim that the response reports which candidate id caused the rejection fails
as stated for self-reference rejections. -/
theorem self_rejection_names_no_candidate :
    POST 10 c2s0 1 [2, 1] = (some .selfDependency, c2s0) ∧
    reportedDependencyId .selfDependency = none :=
  ⟨rfl, rfl⟩

/-- C5 amended: `addDependencies` is atomic on rejection — whenever the call
answers with a self-dependency or circular-dependency rejection, the store is
exactly as before the call — and the response distinguishes self-reference
from cycle; a cycle rejection names a listed candidate id, while a
self-reference rejection carries no id (the offending candidate is the
task's own id, which is implied by the rejection kind). -/
theorem POST_rejection_atomic (fuel : Nat) (s : Store) (t : Nat)
    (ids : List Nat) (r : PostResult) (s' : Store)
    (h : POST fuel s t ids = (some r, s'))
    (hrej : r = .selfDependency ∨ ∃ d, r = .circular d) :
    s' = s ∧ (r = .selfDependency → t ∈ ids) ∧
      ∀ d, r = .circular d → d ∈ ids ∧ reportedDependencyId r = some d := by
  rw [POST] at h
  cases hft : find s t with
  | none =>
    simp only [hft] at h
    obtain ⟨h1, _⟩ := Prod.mk.injEq .. ▸ h
    rcases hrej with rfl | ⟨d, rfl⟩ <;> cases Option.some.inj h1
  | some todo =>
    simp only [hft] at h
    cases hchk : checkDeps s t ids fuel with
    | none => simp only [hchk] at h; cases (Prod.mk.injEq .. ▸ h).1
    | some o =>
      cases o with
      | some e =>
        simp only [hchk] at h
        obtain ⟨h1, h2⟩ := Prod.mk.injEq .. ▸ h
        cases Option.some.inj h1
        refine ⟨h2.symm, ?_, ?_⟩
        · intro hr
          rcases checkDeps_reject_cases hchk with ⟨_, hmem⟩ | ⟨d, hed, _⟩
          · exact hmem
          · rw [hr] at hed; cases hed
        · intro d hr
          rcases checkDeps_reject_cases hchk with ⟨hed, _⟩ | ⟨d', hed, hmem⟩
          · rw [hr] at hed; cases hed
          · rw [hr] at hed
            cases PostResult.circular.inj hed
            exact ⟨hmem, hr ▸ rfl⟩
      | none =>
        simp only [hchk] at h
        cases hce : connectEdges s t ids with
        | none =>
          simp only [hce] at h
          obtain ⟨h1, _⟩ := Prod.mk.injEq .. ▸ h
          rcases hrej with rfl | ⟨d, rfl⟩ <;> cases Option.some.inj h1
        | some s1 =>
          simp only [hce] at h
          cases hes : calculateEarliestStart s1 fuel t with
          | none => simp only [hes] at h; cases (Prod.mk.injEq .. ▸ h).1
          | some es =>
            simp only [hes] at h
            cases hcp : updateCriticalPathStatus (setES s1 t es) fuel with
            | none => simp only [hcp] at h; cases (Prod.mk.injEq .. ▸ h).1
            | some s3 =>
              simp only [hcp] at h
              obtain ⟨h1, _⟩ := Prod.mk.injEq .. ▸ h
              rcases hrej with rfl | ⟨d, rfl⟩ <;> cases Option.some.inj h1

/-- Witness for C5 amended: the rejection of `addDependencies(1, [2, 1])`
leaves the scenario store untouched, and the self-rejection implies the task
id occurs in the candidate list. -/
theorem POST_rejection_atomic_witness :
    c2s0 = c2s0 ∧ (PostResult.selfDependency = .selfDependency → 1 ∈ [2, 1]) ∧
      ∀ d, PostResult.selfDependency = .circular d →
        d ∈ [2, 1] ∧ reportedDependencyId .selfDependency = some d :=
  POST_rejection_atomic 10 c2s0 1 [2, 1] .selfDependency c2s0 rfl (Or.inl rfl)

/-! ## Store lemmas -/

/-- A point lookup after a single-row update: the updated row is returned
through `f`, every other lookup is unchanged. -/
theorem find_updateTodo (s : Store) (i : Nat) (f : Todo → Todo) (u : Nat) :
    find (updateTodo s i f) u =
      if u = i then (find s u).map f else find s u := by
  unfold find updateTodo
  rw [List.find?_map]
  have hpred : ((fun p : Nat × Todo => decide (p.1 = u)) ∘
      (fun p : Nat × Todo => if p.1 = i then (p.1, f p.2) else p)) =
      fun p : Nat × Todo => decide (p.1 = u) := by
    funext p; by_cases h : p.1 = i <;> simp [h]
  rw [hpred]
  cases hf : s.find? (fun p => decide (p.1 = u)) with
  | none => simp [hf]
  | some p =>
    have hp : p.1 = u := by
      have := List.find?_some hf
      simpa using this
    by_cases hui : u = i <;> simp [hf, hp, hui]

/-- A point lookup through the global flag reset. -/
theorem find_clearFlags (s : Store) (u : Nat) :
    find (clearFlags s) u =
      (find s u).map (fun t => { t with isCritical := false }) := by
  unfold find clearFlags
  rw [List.find?_map]
  have hpred : ((fun p : Nat × Todo => decide (p.1 = u)) ∘
      (fun p : Nat × Todo => (p.1, { p.2 with isCritical := false }))) =
      fun p : Nat × Todo => decide (p.1 = u) := by
    funext p; rfl
  rw [hpred]
  cases hf : s.find? (fun p => decide (p.1 = u)) with
  | none => simp [hf]
  | some p => simp [hf]

/-- Resetting the flags twice is the same as resetting them once. -/
theorem clearFlags_clearFlags (s : Store) :
    clearFlags (clearFlags s) = clearFlags s := by
  unfold clearFlags
  rw [List.map_map]
  have h : ((fun p : Nat × Todo => (p.1, { p.2 with isCritical := false })) ∘
      (fun p : Nat × Todo => (p.1, { p.2 with isCritical := false }))) =
      fun p : Nat × Todo => (p.1, { p.2 with isCritical := false }) :=
    funext fun p => rfl
  rw [h]

/-- Setting one flag and then resetting all flags is resetting all flags. -/
theorem clearFlags_setCritical (s : Store) (i : Nat) :
    clearFlags (setCritical s i) = clearFlags s := by
  unfold clearFlags setCritical updateTodo
  rw [List.map_map]
  have h : ((fun p : Nat × Todo => (p.1, { p.2 with isCritical := false })) ∘
      (fun p : Nat × Todo =>
        if p.1 = i then (p.1, { p.2 with isCritical := true }) else p)) =
      fun p : Nat × Todo => (p.1, { p.2 with isCritical := false }) := by
    funext p; by_cases h : p.1 = i <;> simp [h]
  rw [h]

/-- The dependents join ignores the critical flags. -/
theorem dependentsOf_clearFlags (s : Store) (i : Nat) :
    dependentsOf (clearFlags s) i = dependentsOf s i := by
  unfold dependentsOf clearFlags
  rw [List.filter_map, List.map_map]
  rfl

/-- The end-node computation ignores the critical flags. -/
theorem endNodes_clearFlags (s : Store) :
    endNodes (clearFlags s) = endNodes s := by
  unfold endNodes
  have hp : (fun p : Nat × Todo =>
      decide (dependentsOf (clearFlags s) p.1 = [])) =
      fun p : Nat × Todo => decide (dependentsOf s p.1 = []) := by
    funext p
    rw [dependentsOf_clearFlags]
  rw [hp]
  unfold clearFlags
  rw [List.filter_map, List.map_map]
  rfl

/-- The backward walk only sets flags: its result has the same flag-reset
image as its input store. -/
theorem markCriticalPath_clearFlags (fuel : Nat) :
    ∀ s t s', markCriticalPath s fuel t = some s' →
      clearFlags s' = clearFlags s := by
  induction fuel with
  | zero => intro s t s' h; cases h
  | succ n ih =>
    intro s t s' h
    rw [markCriticalPath] at h
    cases hft : find s t with
    | none => rw [hft] at h; cases h
    | some todo0 =>
      simp only [hft] at h
      cases hft2 : find (setCritical s t) t with
      | none => simp only [hft2] at h; cases h
      | some todo =>
        simp only [hft2] at h
        cases hjd : joinDeps (setCritical s t) todo with
        | nil =>
          simp only [hjd] at h
          cases h
          exact clearFlags_setCritical s t
        | cons d ds =>
          simp only [hjd] at h
          rw [ih _ _ _ h, clearFlags_setCritical]

/-- The sequence of backward walks only sets flags. -/
theorem markAll_clearFlags (fuel : Nat) :
    ∀ l s s', markAll fuel s l = some s' → clearFlags s' = clearFlags s := by
  intro l
  induction l with
  | nil => intro s s' h; cases h; rfl
  | cons e rest ih =>
    intro s s' h
    rw [markAll] at h
    cases hm : markCriticalPath s fuel e with
    | none => rw [hm] at h; cases h
    | some s1 =>
      rw [hm] at h
      rw [ih _ _ h, markCriticalPath_clearFlags fuel _ _ _ hm]

/-- Stores that agree after a flag reset have the same end nodes. -/
theorem endNodes_congr {s1 s2 : Store} (h : clearFlags s1 = clearFlags s2) :
    endNodes s1 = endNodes s2 := by
  rw [← endNodes_clearFlags s1, h, endNodes_clearFlags]

/-! ## C9 -/

/-- C9: the critical-path recompute is idempotent.  A second run with no
intervening edits reads the same edges and dates (the first run only set
boolean flags, which the second run's global reset clears again), so it
returns exactly the store the first run produced; in particular the
`isCritical` assignment is unchanged, and a task reached by several backward
walks just has its boolean flag set again. -/
theorem updateCriticalPathStatus_idempotent (fuel : Nat) (s s' : Store)
    (h : updateCriticalPathStatus s fuel = some s') :
    updateCriticalPathStatus s' fuel = some s' := by
  rw [updateCriticalPathStatus] at h ⊢
  have hcf : clearFlags s' = clearFlags s := by
    rw [markAll_clearFlags fuel _ _ _ h, clearFlags_clearFlags]
  rw [hcf, endNodes_congr hcf]
  exact h

/-- The scenario store after one critical-path recompute. -/
def c9after : Store := (updateCriticalPathStatus c2s2 10).getD c2s2

/-- Witness for C9: recomputing the already-recomputed scenario store
returns it unchanged. -/
theorem updateCriticalPathStatus_idempotent_witness :
    updateCriticalPathStatus c9after 10 = some c9after :=
  updateCriticalPathStatus_idempotent 10 c2s2 c9after rfl

/-! ## Frame lemmas: which operations can touch `earliestStart` -/

/-- A single-row update leaves the stored earliest start of other rows. -/
theorem esOf_updateTodo_other (s : Store) (i : Nat) (f : Todo → Todo)
    (u : Nat) (hu : u ≠ i) : esOf (updateTodo s i f) u = esOf s u := by
  unfold esOf
  rw [find_updateTodo, if_neg hu]

/-- A single-row update whose payload does not write `earliestStart` leaves
the stored earliest start of every row. -/
theorem esOf_updateTodo_keep (s : Store) (i : Nat) (f : Todo → Todo) (u : Nat)
    (hf : ∀ t, (f t).earliestStart = t.earliestStart) :
    esOf (updateTodo s i f) u = esOf s u := by
  unfold esOf
  rw [find_updateTodo]
  by_cases hui : u = i
  · rw [if_pos hui]
    cases find s u <;> simp [hf]
  · rw [if_neg hui]

/-- The global flag reset leaves every stored earliest start. -/
theorem esOf_clearFlags (s : Store) (u : Nat) :
    esOf (clearFlags s) u = esOf s u := by
  unfold esOf
  rw [find_clearFlags]
  cases find s u <;> rfl

/-- Setting a critical flag leaves every stored earliest start. -/
theorem esOf_setCritical (s : Store) (i u : Nat) :
    esOf (setCritical s i) u = esOf s u :=
  esOf_updateTodo_keep s i _ u (fun _ => rfl)

/-- Writing one task's earliest start leaves that of the other tasks. -/
theorem esOf_setES_other (s : Store) (i : Nat) (v : Option Nat) (u : Nat)
    (hu : u ≠ i) : esOf (setES s i v) u = esOf s u :=
  esOf_updateTodo_other s i _ u hu

/-- The backward walk writes only critical flags. -/
theorem esOf_markCriticalPath (fuel : Nat) :
    ∀ s t s' u, markCriticalPath s fuel t = some s' →
      esOf s' u = esOf s u := by
  induction fuel with
  | zero => intro s t s' u h; cases h
  | succ n ih =>
    intro s t s' u h
    rw [markCriticalPath] at h
    cases hft : find s t with
    | none => rw [hft] at h; cases h
    | some todo0 =>
      simp only [hft] at h
      cases hft2 : find (setCritical s t) t with
      | none => simp only [hft2] at h; cases h
      | some todo =>
        simp only [hft2] at h
        cases hjd : joinDeps (setCritical s t) todo with
        | nil =>
          simp only [hjd] at h
          cases h
          exact esOf_setCritical s t u
        | cons d ds =>
          simp only [hjd] at h
          rw [ih _ _ _ u h, esOf_setCritical]

/-- The sequence of backward walks writes only critical flags. -/
theorem esOf_markAll (fuel : Nat) :
    ∀ l s s' u, markAll fuel s l = some s' → esOf s' u = esOf s u := by
  intro l
  induction l with
  | nil => intro s s' u h; cases h; rfl
  | cons e rest ih =>
    intro s s' u h
    rw [markAll] at h
    cases hm : markCriticalPath s fuel e with
    | none => rw [hm] at h; cases h
    | some s1 =>
      rw [hm] at h
      rw [ih _ _ u h, esOf_markCriticalPath fuel _ _ _ u hm]

/-- The whole critical-path recompute writes only critical flags. -/
theorem esOf_updateCriticalPathStatus (s : Store) (fuel : Nat) (s' : Store)
    (u : Nat) (h : updateCriticalPathStatus s fuel = some s') :
    esOf s' u = esOf s u := by
  rw [updateCriticalPathStatus] at h
  rw [esOf_markAll fuel _ _ _ u h, esOf_clearFlags]

/-- The edge connect writes only the dependency list of the edited task. -/
theorem esOf_connectEdges (s : Store) (t : Nat) (ids : List Nat) (s1 : Store)
    (u : Nat) (h : connectEdges s t ids = some s1) : esOf s1 u = esOf s u := by
  rw [connectEdges] at h
  by_cases hall : ids.all (fun i => (find s i).isSome)
  · rw [if_pos hall] at h
    cases h
    exact esOf_updateTodo_keep s t _ u (fun _ => rfl)
  · rw [if_neg hall] at h; cases h

/-! ## C10 -/

/-- C10: after a successful `addDependencies` or `removeDependencies` on
task `t`, the persisted `earliestStart` of every task other than `t` is
unchanged: the edge mutation touches only `t`'s dependency list, the
earliest-start write targets only `t`, and the global recompute rewrites only
`isCritical` flags.  Dependents of `t` therefore keep their previously stored
`earliestStart` values. -/
theorem dependency_edit_frames_earliestStart (fuel : Nat) (s : Store)
    (t : Nat) (ids : List Nat) (s' : Store) (u : Nat) (hu : u ≠ t) :
    (POST fuel s t ids = (some .ok, s') → esOf s' u = esOf s u) ∧
    (DELETE fuel s t ids = (some .ok, s') → esOf s' u = esOf s u) := by
  constructor
  · intro h
    rw [POST] at h
    cases hft : find s t with
    | none => simp only [hft] at h; simp at h
    | some todo =>
      simp only [hft] at h
      cases hchk : checkDeps s t ids fuel with
      | none => simp only [hchk] at h; simp at h
      | some o =>
        cases o with
        | some e =>
          simp only [hchk] at h
          simp only [Prod.mk.injEq] at h
          rw [← h.2]
        | none =>
          simp only [hchk] at h
          cases hce : connectEdges s t ids with
          | none => simp only [hce] at h; simp at h
          | some s1 =>
            simp only [hce] at h
            cases hes : calculateEarliestStart s1 fuel t with
            | none => simp only [hes] at h; simp at h
            | some es =>
              simp only [hes] at h
              cases hcp : updateCriticalPathStatus (setES s1 t es) fuel with
              | none => simp only [hcp] at h; simp at h
              | some s3 =>
                simp only [hcp] at h
                obtain ⟨-, h2⟩ := Prod.mk.injEq .. ▸ h
                subst h2
                rw [esOf_updateCriticalPathStatus _ fuel _ u hcp,
                  esOf_setES_other _ _ _ u hu,
                  esOf_connectEdges s t ids s1 u hce]
  · intro h
    rw [DELETE] at h
    cases hft : find s t with
    | none => simp only [hft] at h; simp at h
    | some todo =>
      simp only [hft] at h
      cases hes : calculateEarliestStart
          (updateTodo s t (fun td =>
            { td with deps := td.deps.filter (fun i => ¬ i ∈ ids) })) fuel t with
      | none => simp only [hes] at h; simp at h
      | some es =>
        simp only [hes] at h
        cases hcp : updateCriticalPathStatus
            (setES (updateTodo s t (fun td =>
              { td with deps := td.deps.filter (fun i => ¬ i ∈ ids) })) t es)
            fuel with
        | none => simp only [hcp] at h; simp at h
        | some s3 =>
          simp only [hcp] at h
          obtain ⟨-, h2⟩ := Prod.mk.injEq .. ▸ h
          subst h2
          rw [esOf_updateCriticalPathStatus _ fuel _ u hcp,
            esOf_setES_other _ _ _ u hu]
          exact esOf_updateTodo_keep s t _ u (fun _ => rfl)

/-- Witness for C10: the successful add `addDependencies(2, [1])` on the
scenario store leaves task 3's stored earliest start unchanged. -/
theorem dependency_edit_frames_earliestStart_witness :
    esOf c2s2 3 = esOf c2s1 3 :=
  (dependency_edit_frames_earliestStart 10 c2s1 2 [1] c2s2 3 (by decide)).1 rfl

/-! ## The cycle detector on acyclic stores -/

/-- A joined dependency row comes from a listed edge to an existing task. -/
theorem joinDeps_mem {s : Store} {todo : Todo} {p : Nat × Todo}
    (hp : p ∈ joinDeps s todo) : p.1 ∈ todo.deps ∧ find s p.1 = some p.2 := by
  unfold joinDeps at hp
  obtain ⟨i, hi, hmap⟩ := List.mem_filterMap.mp hp
  cases hfi : find s i with
  | none => rw [hfi] at hmap; cases hmap
  | some td =>
    rw [hfi] at hmap
    simp only [Option.map_some'] at hmap
    cases hmap
    exact ⟨hi, hfi⟩

/-- Every id the DFS loop iterates over is an edge target of the current
node. -/
theorem edgeRel_of_joined {s : Store} {cur : Nat} {todo : Todo} {d : Nat}
    (hf : find s cur = some todo)
    (hd : d ∈ (joinDeps s todo).map (fun p => p.1)) : edgeRel s cur d := by
  obtain ⟨p, hp, hfst⟩ := List.mem_map.mp hd
  exact ⟨todo, hf, hfst ▸ (joinDeps_mem hp).1⟩

/-- On an acyclic store the DFS loop never reports a hit: a dependency equal
to the start node `tgt` would close a cycle through the path `tgt →* cur`,
and the recursive searches cannot hit either (hypothesis `ihdfs`). -/
theorem dfsFor_no_true (s : Store) (hacyc : Acyclic s) (tgt fuel : Nat)
    (ihdfs : ∀ cur visited stack res,
      (∀ x ∈ stack, Relation.TransGen (edgeRel s) x cur) →
      Relation.ReflTransGen (edgeRel s) tgt cur →
      dfs s tgt fuel cur visited stack = some res → res.1 = false)
    (cur : Nat) :
    ∀ (l visited stk : List Nat) (res : Bool × List Nat),
      (∀ d ∈ l, edgeRel s cur d) →
      (∀ x ∈ stk, Relation.ReflTransGen (edgeRel s) x cur) →
      Relation.ReflTransGen (edgeRel s) tgt cur →
      dfsFor tgt (fun d v st => dfs s tgt fuel d v st) l visited stk =
        some res →
      res.1 = false := by
  intro l
  induction l with
  | nil =>
    intro visited stk res _ _ _ h
    cases h
    rfl
  | cons d rest ih =>
    intro visited stk res hdeps hstk hrt h
    rw [dfsFor] at h
    by_cases hdt : d = tgt
    · exfalso
      have hedge : edgeRel s cur d := hdeps d (List.mem_cons_self _ _)
      subst hdt
      exact hacyc d (Relation.TransGen.tail' hrt hedge)
    · rw [if_neg hdt] at h
      cases hd : dfs s tgt fuel d visited stk with
      | none => rw [hd] at h; cases h
      | some res1 =>
        obtain ⟨b1, v1⟩ := res1
        have hedge : edgeRel s cur d := hdeps d (List.mem_cons_self _ _)
        have hb1 : b1 = false :=
          ihdfs d visited stk (b1, v1)
            (fun x hx => Relation.TransGen.tail' (hstk x hx) hedge)
            (Relation.ReflTransGen.tail hrt hedge) hd
        subst hb1
        rw [hd] at h
        exact ih v1 stk res
          (fun d' hd' => hdeps d' (List.mem_cons_of_mem _ hd')) hstk hrt h

/-- On an acyclic store the source's `dfs` never returns `true`: every node
on the recursion stack has a real path to the current node, so a stack
revisit or a hit on `tgt` would exhibit a directed cycle. -/
theorem dfs_no_true (s : Store) (hacyc : Acyclic s) (tgt : Nat) :
    ∀ fuel cur visited stack res,
      (∀ x ∈ stack, Relation.TransGen (edgeRel s) x cur) →
      Relation.ReflTransGen (edgeRel s) tgt cur →
      dfs s tgt fuel cur visited stack = some res → res.1 = false := by
  intro fuel
  induction fuel with
  | zero => intro cur visited stack res _ _ h; cases h
  | succ n ih =>
    intro cur visited stack res hstack hrt h
    rw [dfs] at h
    by_cases hin : cur ∈ stack
    · exact absurd (hstack cur hin) (hacyc cur)
    · rw [if_neg hin] at h
      by_cases hv : cur ∈ visited
      · rw [if_pos hv] at h
        cases h
        rfl
      · rw [if_neg hv] at h
        cases hf : find s cur with
        | none =>
          simp only [hf] at h
          cases h
          rfl
        | some todo =>
          simp only [hf] at h
          refine dfsFor_no_true s hacyc tgt n ih cur _ _ _ res
            (fun d hd => edgeRel_of_joined hf hd) ?_ hrt h
          intro x hx
          rcases List.mem_cons.mp hx with rfl | hx'
          · exact Relation.ReflTransGen.refl
          · exact (hstack x hx').to_reflTransGen

/-- On an acyclic store `hasCircularDependencies` never fires (this is the
C1 defect seen from the other side: the check searches for `newDependencyId`,
which is reachable from itself only through a pre-existing cycle). -/
theorem hasCircularDependencies_acyclic {s : Store} (hacyc : Acyclic s)
    {tid d fuel : Nat} {b : Bool}
    (h : hasCircularDependencies s tid d fuel = some b) : b = false := by
  unfold hasCircularDependencies at h
  cases hd : dfs s d fuel d [] [] with
  | none => rw [hd] at h; cases h
  | some res =>
    rw [hd] at h
    simp only [Option.map_some'] at h
    rw [← Option.some.inj h]
    exact dfs_no_true s hacyc d fuel d [] [] res
      (fun x hx => absurd hx (List.not_mem_nil x)) Relation.ReflTransGen.refl hd

/-- On an acyclic store, a validation loop over a list containing the edited
task itself always answers with the self-dependency rejection. -/
theorem checkDeps_self_acyclic {s : Store} {id : Nat} {ids : List Nat}
    {fuel : Nat} {x : Option PostResult} (hacyc : Acyclic s) (hmem : id ∈ ids)
    (h : checkDeps s id ids fuel = some x) : x = some .selfDependency := by
  induction ids with
  | nil => cases hmem
  | cons d rest ih =>
    rw [checkDeps] at h
    by_cases hd : d = id
    · rw [if_pos hd] at h
      exact (Option.some.inj h).symm
    · rw [if_neg hd] at h
      cases hcirc : hasCircularDependencies s id d fuel with
      | none => rw [hcirc] at h; cases h
      | some b =>
        have hb := hasCircularDependencies_acyclic hacyc hcirc
        subst hb
        rw [hcirc] at h
        rcases List.mem_cons.mp hmem with rfl | hmem'
        · exact absurd rfl hd
        · exact ih hmem' h

/-- The scenario store has no edges at all, hence no directed cycle. -/
theorem c2s0_acyclic : Acyclic c2s0 := by
  have hno : ∀ x y, ¬ edgeRel c2s0 x y := by
    rintro x y ⟨t, hf, hy⟩
    unfold find at hf
    cases hp : List.find? (fun p => decide (p.1 = x)) c2s0 with
    | none => rw [hp] at hf; cases hf
    | some p =>
      rw [hp] at hf
      simp only [Option.map_some'] at hf
      cases hf
      have hmem := List.mem_of_find?_eq_some hp
      simp only [c2s0, mkTodo, List.mem_cons, List.not_mem_nil, or_false]
        at hmem
      rcases hmem with rfl | rfl | rfl <;> simp at hy
  intro a h
  cases h with
  | single e => exact hno _ _ e
  | tail _ e => exact hno _ _ e

/-! ## C7 -/

/-- C7 counterexample: the claim quantifies over every graph state, but on
the corrupted store in which tasks 1 and 2 depend on each other, the call
`addDependencies(3, [1, 3])` — whose list contains 3 itself — is rejected
with the circular-dependency error for candidate 1, not with
`SelfDependency`: candidate 1 is validated first and its DFS finds the
pre-existing cycle before the self check on candidate 3 is ever reached. -/
theorem self_in_list_rejected_as_cycle_on_cyclic_store :
    (find c7store 3).isSome = true ∧ 3 ∈ [1, 3] ∧
    POST 10 c7store 3 [1, 3] = (some (.circular 1), c7store) ∧
    PostResult.circular 1 ≠ PostResult.selfDependency :=
  ⟨rfl, by decide, rfl, by decide⟩

/-- C7 amended: on every acyclic store (the invariant state), for every
existing task `t` and every dependency list containing `t`, the call is
rejected with `SelfDependency` and the store is unchanged; within each
candidate's validation the equal-identifier check runs before the cycle
search, and on acyclic stores the cycle search never fires, so the
self-rejection is reached no matter where `t` occurs in the list. -/
theorem addDependencies_self_rejected_on_acyclic (fuel : Nat) (s : Store)
    (t : Nat) (ids : List Nat) (r : PostResult) (s' : Store)
    (hacyc : Acyclic s) (ht : (find s t).isSome = true) (hmem : t ∈ ids)
    (h : POST fuel s t ids = (some r, s')) :
    r = .selfDependency ∧ s' = s := by
  rw [POST] at h
  cases hft : find s t with
  | none => rw [hft] at ht; cases ht
  | some todo =>
    simp only [hft] at h
    cases hchk : checkDeps s t ids fuel with
    | none => simp only [hchk] at h; simp at h
    | some x =>
      have hx := checkDeps_self_acyclic hacyc hmem hchk
      subst hx
      simp only [hchk] at h
      simp only [Prod.mk.injEq] at h
      exact ⟨(Option.some.inj h.1).symm, h.2.symm⟩

/-- Witness for C7 amended: on the edge-free scenario store,
`addDependencies(1, [2, 1])` is rejected as a self-dependency with the store
unchanged. -/
theorem addDependencies_self_rejected_on_acyclic_witness :
    PostResult.selfDependency = .selfDependency ∧ c2s0 = c2s0 :=
  addDependencies_self_rejected_on_acyclic 10 c2s0 1 [2, 1] .selfDependency
    c2s0 c2s0_acyclic rfl (by decide) rfl
